import Mathlib

/-!
# SensorBase: device resolution and handle lifecycle

A shallow embedding of `open-source/libs/sensors/SensorBase.cpp`.

The class methods become state-passing functions over the object
(`SensorBase`) and an explicit model of the process's descriptor table and of
the system calls issued (`World`).  What the kernel answers (which paths open,
what a directory lists, what `EVIOCGNAME` returns, what `write` returns) is a
parameter (`Kernel`) that every theorem quantifies over.

C strings are Lean `String`s, one character per byte and no embedded NUL, so
that `String.length` is `strlen`; `int` values are `Int`.  The fixed-size
buffers of the source are modelled where their size can be exceeded: the
80-byte `name` of the two scans (`nameBuffer`) and the `PATH_MAX`-byte
`sympath` of `openLink`, past whose end the behaviour is undefined (`none`; in
practice the process is killed).
-/

namespace Sensors

/-! ## The environment: kernel answers, descriptor table, system-call log -/

/-- What the environment answers.  All fields are external to the program. -/
structure Kernel where
  /-- Listing of `opendir`/`readdir` on a path; `none` when `opendir` returns NULL. -/
  dir : String → Option (List String)
  /-- Whether `open(path, O_RDONLY)` succeeds. -/
  node : String → Bool
  /-- Answer of the `EVIOCGNAME` ioctl on the node opened at a path: the return
  value and the name of the device, of whatever length. -/
  evName : String → Int × String
  /-- The bytes that the caller's uninitialised `char name[80]` holds from
  `name[79]` on when the ioctl on the node at a path returns, read as a C
  string (empty when `name[79]` happens to be 0).  The program never writes
  `name[79]`; bytes past it lie outside the array. -/
  residue : String → String
  /-- Whether `open(path, O_WRONLY)` succeeds. -/
  wnode : String → Bool
  /-- Return value of `write` on the file at a path for the submitted bytes. -/
  writeRet : String → List Nat → Int

/-- One system call, with its arguments and its result. -/
inductive Call where
  | sys_opendir (path : String) (ok : Bool)
  | sys_closedir (fd : Int)
  | sys_open (path : String) (ret : Int)
  | sys_ioctl (fd : Int) (ret : Int)
  | sys_close (fd : Int) (wasOpen : Bool)
  | sys_write (fd : Int) (bytes : List Nat) (ret : Int)
  deriving DecidableEq, Repr

/-- The process state outside the object: the open descriptors (number and the
path each was opened on) and the system calls issued so far, oldest first. -/
structure World where
  fds : List (Nat × String)
  log : List Call
  deriving DecidableEq, Repr

/-- Search upwards from `k` for a number that is not in `used`. -/
def lowestFrom (used : List Nat) : Nat → Nat → Nat
  | 0, k => k
  | fuel + 1, k => if k ∈ used then lowestFrom used fuel (k + 1) else k

/-- The lowest descriptor number not in use (the POSIX allocation rule). -/
def lowestFree (used : List Nat) : Nat :=
  lowestFrom used used.length 0

/-- The descriptor numbers currently open. -/
def World.used (w : World) : List Nat :=
  w.fds.map Prod.fst

/-- Whether a descriptor number is currently open. -/
def World.isOpen (w : World) (fd : Int) : Bool :=
  w.fds.any (fun e => decide ((e.1 : Int) = fd))

/-- The path a descriptor was opened on. -/
def World.pathOf (w : World) (fd : Int) : Option String :=
  (w.fds.find? (fun e => decide ((e.1 : Int) = fd))).map Prod.snd

/-- Remove a descriptor number from the table. -/
def World.release (w : World) (fd : Int) : List (Nat × String) :=
  w.fds.filter (fun e => !decide ((e.1 : Int) = fd))

/-- Model of `open(path, O_RDONLY)`: the lowest free descriptor, or -1. -/
def sys_open (k : Kernel) (w : World) (path : String) : Int × World :=
  if k.node path then
    let fd := lowestFree w.used
    ((fd : Int), ⟨(fd, path) :: w.fds, w.log ++ [Call.sys_open path fd]⟩)
  else
    (-1, ⟨w.fds, w.log ++ [Call.sys_open path (-1)]⟩)

/-- Model of `open(path, O_WRONLY)`: the lowest free descriptor, or -1. -/
def sys_open_wr (k : Kernel) (w : World) (path : String) : Int × World :=
  if k.wnode path then
    let fd := lowestFree w.used
    ((fd : Int), ⟨(fd, path) :: w.fds, w.log ++ [Call.sys_open path fd]⟩)
  else
    (-1, ⟨w.fds, w.log ++ [Call.sys_open path (-1)]⟩)

/-- Model of `close(fd)`. -/
def sys_close (w : World) (fd : Int) : World :=
  ⟨w.release fd, w.log ++ [Call.sys_close fd (w.isOpen fd)]⟩

/-- Model of `opendir(path)`: the stream holds a descriptor of its own; the
entries are what successive `readdir` calls will return. -/
def sys_opendir (k : Kernel) (w : World) (path : String) :
    Option (Int × List String) × World :=
  match k.dir path with
  | none => (none, ⟨w.fds, w.log ++ [Call.sys_opendir path false]⟩)
  | some entries =>
    let fd := lowestFree w.used
    (some ((fd : Int), entries),
      ⟨(fd, path) :: w.fds, w.log ++ [Call.sys_opendir path true]⟩)

/-- Model of `closedir(dir)`. -/
def sys_closedir (w : World) (dirfd : Int) : World :=
  ⟨w.release dirfd, w.log ++ [Call.sys_closedir dirfd]⟩

/-- The C string found at `name` after `EVIOCGNAME(len)` succeeded on the node
at a path.  The kernel stores `min(strlen + 1, len)` bytes of the device name:
a name shorter than `len` arrives with its terminator; of a longer one the
first `len` bytes arrive without, and the string runs on into the bytes the
buffer held before. -/
def nameBuffer (k : Kernel) (path : String) (len : Nat) : String :=
  if (k.evName path).2.length < len then (k.evName path).2
  else ⟨(k.evName path).2.data.take len ++ (k.residue path).data⟩

/-- Model of `ioctl(fd, EVIOCGNAME(len), &name)`: the return value and the C
string then found at `name`; `EBADF` (-1) on a descriptor that is not open. -/
def sys_ioctl_name (k : Kernel) (w : World) (fd : Int) (len : Nat) :
    (Int × String) × World :=
  match w.pathOf fd with
  | none => ((-1, ""), ⟨w.fds, w.log ++ [Call.sys_ioctl fd (-1)]⟩)
  | some path =>
    (((k.evName path).1, nameBuffer k path len),
      ⟨w.fds, w.log ++ [Call.sys_ioctl fd (k.evName path).1]⟩)

/-- Model of `write(fd, buf, n)`, `bytes` being the `n` bytes at `buf`. -/
def sys_write (k : Kernel) (w : World) (fd : Int) (bytes : List Nat) : Int × World :=
  match w.pathOf fd with
  | none => (-1, ⟨w.fds, w.log ++ [Call.sys_write fd bytes (-1)]⟩)
  | some path =>
    (k.writeRet path bytes, ⟨w.fds, w.log ++ [Call.sys_write fd bytes (k.writeRet path bytes)]⟩)

/-! ## The object -/

/-- The data members of `SensorBase` that the methods of `SensorBase.cpp` use.
A null `const char*` is `none`. -/
structure SensorBase where
  dev_name : Option String
  data_name : Option String
  dev_fd : Int
  data_fd : Int
  input_name : String
  flush_state : Int
  deriving DecidableEq, Repr

namespace SensorBase

/-- The name the scan compares (lines 123-126 and 163-166): the C string at
`char name[80]` after `EVIOCGNAME(sizeof(name) - 1)`, or the empty string when
the ioctl returns less than 1 (`name[0] = 0`). -/
def queryName (k : Kernel) (w : World) (fd : Int) : String × World :=
  let r := sys_ioctl_name k w fd (80 - 1)
  (if r.1.1 < 1 then "" else r.1.2, r.2)

/-- The test `strncmp(de->d_name, "event", 5)` of `openLink` being zero. -/
def eventPrefix (d_name : String) : Bool :=
  decide (d_name.data.take 5 = "event".data)

/-- The `devname` that `openLink` builds: `strcpy(devname, dirname)` then
`strcat(devname, de->d_name)`, with `dirname = "/dev/input"`. -/
def linkDevname (d_name : String) : String :=
  "/dev/input" ++ d_name

/-- The `while ((de = readdir(dir)))` loop of `openLink` (lines 115-135), over
the entries the stream still has to return; `fd` is the local variable. -/
def openLinkLoop (k : Kernel) (inputName : String) :
    List String → Int → SensorBase → World → Int × SensorBase × World
  | [], fd, self, w => (fd, self, w)
  | de :: rest, fd, self, w =>
    if !eventPrefix de then
      openLinkLoop k inputName rest fd self w
    else
      let r := sys_open k w (linkDevname de)
      if r.1 ≥ 0 then
        let q := queryName k r.2 r.1
        if q.1 = inputName then
          (r.1, { self with input_name := de }, q.2)
        else
          openLinkLoop k inputName rest (-1) self (sys_close q.2 r.1)
      else
        openLinkLoop k inputName rest r.1 self r.2

/-- The directory `openLink` scans: `symname` followed by the input name. -/
def symPath (inputName : String) : String :=
  "/sys/class/sensor_event/symlink/" ++ inputName

/-- The size of the path buffers, `PATH_MAX` of `<linux/limits.h>`. -/
def PATH_MAX : Nat := 4096

/-- Whether `strcpy(filename, de->d_name)` of `openLink` (line 118) stays inside
`char sympath[PATH_MAX]`: the directory path, the `'/'`, the entry and its
terminator. -/
def sympathHolds (inputName d_name : String) : Bool :=
  decide ((symPath inputName).length + 1 + d_name.length + 1 ≤ PATH_MAX)

/-- The entries the loop of `openLink` can handle: those before the first
`event` entry whose copy into `sympath` would overrun it. -/
def sympathEntries (inputName : String) (entries : List String) : List String :=
  entries.takeWhile (fun de => !eventPrefix de || sympathHolds inputName de)

/-- `SensorBase::openLink` (lines 98-139).  The result is `none` when a copy
overruns `sympath`, whose size no line checks: `strcat(sympath, inputName)`
(lines 108-109), or the `strcpy` of an entry that the loop reaches (line 118),
that is, when the loop has run through the entries before it without a match.
An entry that fits `sympath` also fits `devname`, and the member `input_name`
(declared in the absent header) is taken to hold it. -/
def openLink (k : Kernel) (inputName : String) (self : SensorBase) (w : World) :
    Option (Int × SensorBase × World) :=
  if (symPath inputName).length + 1 ≤ PATH_MAX then
    match sys_opendir k w (symPath inputName) with
    | (none, w1) => some (-1, self, w1)
    | (some (dirfd, entries), w1) =>
      let r := openLinkLoop k inputName (sympathEntries inputName entries) (-1) self w1
      if r.1 ≥ 0 ∨ (sympathEntries inputName entries).length = entries.length then
        some (r.1, r.2.1, sys_closedir r.2.2 dirfd)
      else
        none
  else
    none

/-- The test of `openInput` that skips the entries `.` and `..`. -/
def dotEntry (d_name : String) : Bool :=
  match d_name.data with
  | [c0] => decide (c0 = '.')
  | [c0, c1] => decide (c0 = '.') && decide (c1 = '.')
  | _ => false

/-- The `devname` that `openInput` builds: `dirname`, a `'/'`, then the entry. -/
def inputDevname (d_name : String) : String :=
  "/dev/input" ++ "/" ++ d_name

/-- The `while ((de = readdir(dir)))` loop of `openInput` (lines 155-175). -/
def openInputLoop (k : Kernel) (inputName : String) :
    List String → Int → SensorBase → World → Int × SensorBase × World
  | [], fd, self, w => (fd, self, w)
  | de :: rest, fd, self, w =>
    if dotEntry de then
      openInputLoop k inputName rest fd self w
    else
      let r := sys_open k w (inputDevname de)
      if r.1 ≥ 0 then
        let q := queryName k r.2 r.1
        if q.1 = inputName then
          (r.1, { self with input_name := de }, q.2)
        else
          openInputLoop k inputName rest (-1) self (sys_close q.2 r.1)
      else
        openInputLoop k inputName rest r.1 self r.2

/-- `SensorBase::openInput` (lines 141-179).  Its `devname[PATH_MAX]` receives
`"/dev/input/"` and a `d_name`, which a `struct dirent` limits to 255 bytes. -/
def openInput (k : Kernel) (inputName : String) (self : SensorBase) (w : World) :
    Int × SensorBase × World :=
  match sys_opendir k w "/dev/input" with
  | (none, w1) => (-1, self, w1)
  | (some (dirfd, entries), w1) =>
    let r := openInputLoop k inputName entries (-1) self w1
    (r.1, r.2.1, sys_closedir r.2.2 dirfd)

/-- The member initialisers of the constructor (lines 32-33).  `input_name` and
`flush_state` are not initialised: their initial content is a parameter. -/
def init (dev_name data_name : Option String) (input_name0 : String)
    (flush_state0 : Int) : SensorBase :=
  { dev_name := dev_name, data_name := data_name, dev_fd := -1, data_fd := -1,
    input_name := input_name0, flush_state := flush_state0 }

/-- The constructor `SensorBase::SensorBase` (lines 29-42); `none` when
`openLink` does not return. -/
def construct (k : Kernel) (dev_name data_name : Option String)
    (input_name0 : String) (flush_state0 : Int) (w : World) :
    Option (SensorBase × World) :=
  let self := init dev_name data_name input_name0 flush_state0
  match data_name with
  | none => some (self, w)
  | some name =>
    match openLink k name self w with
    | none => none
    | some r =>
      if r.1 < 0 then
        let r2 := openInput k name r.2.1 r.2.2
        some ({ r2.2.1 with data_fd := r2.1 }, r2.2.2)
      else
        some ({ r.2.1 with data_fd := r.1 }, r.2.2)

/-- The destructor `SensorBase::~SensorBase` (lines 44-52). -/
def destruct (self : SensorBase) (w : World) : World :=
  let w1 := if self.data_fd ≥ 0 then sys_close w self.data_fd else w
  if self.dev_fd ≥ 0 then sys_close w1 self.dev_fd else w1

/-- `SensorBase::open_device` (lines 54-61). -/
def open_device (k : Kernel) (self : SensorBase) (w : World) : Int × SensorBase × World :=
  if self.dev_fd < 0 then
    match self.dev_name with
    | some name =>
      let r := sys_open k w name
      (0, { self with dev_fd := r.1 }, r.2)
    | none => (0, self, w)
  else (0, self, w)

/-- `SensorBase::close_device` (lines 63-70). -/
def close_device (self : SensorBase) (w : World) : Int × SensorBase × World :=
  if self.dev_fd ≥ 0 then
    (0, { self with dev_fd := -1 }, sys_close w self.dev_fd)
  else (0, self, w)

/-- `SensorBase::getFd` (lines 72-78), a `const` method. -/
def getFd (self : SensorBase) : Int :=
  match self.data_name with
  | none => self.dev_fd
  | some _ => self.data_fd

/-- `SensorBase::setDelay` (lines 80-83). -/
def setDelay (_handle : Int) (_ns : Int) : Int := 0

/-- `SensorBase::hasPendingEvents` (lines 85-88). -/
def hasPendingEvents (_self : SensorBase) : Bool := false

/-- `SensorBase::batch` (lines 181-184). -/
def batch (_handle _flags : Int) (_period_ns _timeout : Int) : Int := 0

/-- The value of a 32-bit `int` holding `x` modulo 2^32. -/
def toInt32 (x : Int) : Int :=
  (x + 2 ^ 31) % 2 ^ 32 - 2 ^ 31

/-- The expression `1 << handle` on `int`.  C leaves it undefined for
`handle < 0` or `handle > 30`; there the model takes the wrapped value. -/
def shl1 (handle : Int) : Int :=
  toInt32 (2 ^ handle.toNat)

/-- The characters `sprintf(state, "%d", handle)` stores before the NUL. -/
def sprintf_d (handle : Int) : List Char :=
  if handle < 0 then '-' :: Nat.toDigits 10 (-handle).toNat
  else Nat.toDigits 10 handle.toNat

/-- The `strlen(s) + 1` bytes at a C string: its characters and the NUL. -/
def cstrBytes (s : List Char) : List Nat :=
  s.map Char.toNat ++ [0]

/-- The fixed control file of `flush`. -/
def flushPath : String := "/sys/class/sensors/sensor_dev/flush"

/-- `SensorBase::flush` (lines 186-211). -/
def flush (k : Kernel) (handle : Int) (self : SensorBase) (w : World) :
    Int × SensorBase × World :=
  let o := sys_open_wr k w flushPath
  let a : Int × SensorBase × World :=
    if o.1 ≥ 0 then
      let state := sprintf_d handle
      let self1 := { self with flush_state := Int.lor self.flush_state (shl1 handle) }
      let wr := sys_write k o.2 o.1 (cstrBytes state)
      (wr.1, self1, sys_close wr.2 o.1)
    else
      (-1, self, o.2)
  if a.1 < 0 then
    (a.1, { a.2.1 with
        flush_state := Int.land a.2.1.flush_state (Int.lnot (shl1 handle)) }, a.2.2)
  else
    a

/-- The calls a client can make on a constructed object. -/
inductive Method where
  | open_device
  | close_device
  | getFd
  | flush (handle : Int)
  deriving DecidableEq, Repr

/-- One method call on the object: the returned `int`, the object and the
world after the call. -/
def invoke (k : Kernel) (m : Method) (self : SensorBase) (w : World) :
    Int × SensorBase × World :=
  match m with
  | Method.open_device => open_device k self w
  | Method.close_device => close_device self w
  | Method.getFd => (getFd self, self, w)
  | Method.flush handle => flush k handle self w

/-- A sequence of method calls, in order; the return values are dropped. -/
def invokeAll (k : Kernel) : List Method → SensorBase → World → SensorBase × World
  | [], self, w => (self, w)
  | m :: ms, self, w =>
    let r := invoke k m self w
    invokeAll k ms r.2.1 r.2.2

/-! ## Vocabulary for the statements -/

/-- The name the kernel reports for the node at `path`: the device name, or
the empty string when the name query returns less than 1. -/
def reportedName (k : Kernel) (path : String) : String :=
  if (k.evName path).1 < 1 then "" else (k.evName path).2

/-- The name the scan compares for the node at `path`: what `queryName` finds
in the 80-byte buffer. -/
def bufferedName (k : Kernel) (path : String) : String :=
  if (k.evName path).1 < 1 then "" else nameBuffer k path 79

/-- A node that opens and whose buffered name equals the input name. -/
def nodeMatches (k : Kernel) (inputName path : String) : Bool :=
  k.node path && decide (bufferedName k path = inputName)

/-- The paths given to `open`, in call order. -/
def openedPaths (log : List Call) : List String :=
  log.filterMap (fun c => match c with
    | Call.sys_open path _ => some path
    | _ => none)

/-- The paths given to `opendir`, in call order. -/
def openedDirs (log : List Call) : List String :=
  log.filterMap (fun c => match c with
    | Call.sys_opendir path _ => some path
    | _ => none)

/-- The `close` calls that hit a descriptor that was not open. -/
def badCloses (log : List Call) : List Call :=
  log.filter (fun c => match c with
    | Call.sys_close _ wasOpen => !wasOpen
    | _ => false)

/-! ## A common shape for the two scans (used in proofs only) -/

/-- The loop shared by `openLink` and `openInput`, with the entry filter and the
path construction as parameters. -/
def scanLoop (skip : String → Bool) (dev : String → String) (k : Kernel)
    (inputName : String) :
    List String → Int → SensorBase → World → Int × SensorBase × World
  | [], fd, self, w => (fd, self, w)
  | de :: rest, fd, self, w =>
    if skip de then
      scanLoop skip dev k inputName rest fd self w
    else
      let r := sys_open k w (dev de)
      if r.1 ≥ 0 then
        let q := queryName k r.2 r.1
        if q.1 = inputName then
          (r.1, { self with input_name := de }, q.2)
        else
          scanLoop skip dev k inputName rest (-1) self (sys_close q.2 r.1)
      else
        scanLoop skip dev k inputName rest r.1 self r.2

/-- The first entry that is not skipped and whose node matches. -/
def firstMatch (skip : String → Bool) (dev : String → String) (k : Kernel)
    (inputName : String) : List String → Option String
  | [] => none
  | de :: rest =>
    if skip de then firstMatch skip dev k inputName rest
    else if nodeMatches k inputName (dev de) then some de
    else firstMatch skip dev k inputName rest

/-- The system calls of a scan in which every candidate gets descriptor `fd`. -/
def scanLog (skip : String → Bool) (dev : String → String) (k : Kernel)
    (inputName : String) (fd : Nat) : List String → List Call
  | [] => []
  | de :: rest =>
    if skip de then scanLog skip dev k inputName fd rest
    else if k.node (dev de) then
      if bufferedName k (dev de) = inputName then
        [Call.sys_open (dev de) fd, Call.sys_ioctl fd (k.evName (dev de)).1]
      else
        [Call.sys_open (dev de) fd, Call.sys_ioctl fd (k.evName (dev de)).1,
          Call.sys_close fd true] ++ scanLog skip dev k inputName fd rest
    else
      Call.sys_open (dev de) (-1) :: scanLog skip dev k inputName fd rest

/-- The descriptor a candidate gets during a scan started with table `fds`:
the directory stream takes the lowest free number, the candidate the next. -/
def candFd (fds : List (Nat × String)) : Nat :=
  lowestFree (lowestFree (fds.map Prod.fst) :: fds.map Prod.fst)

/-- The result of one phase on a directory that opened with the listing `es`,
computed from the listing. -/
def phaseDone (skip : String → Bool) (dev : String → String) (k : Kernel)
    (inputName dirPath : String) (es : List String) (self : SensorBase)
    (fds : List (Nat × String)) (log : List Call) : Int × SensorBase × World :=
  ((match firstMatch skip dev k inputName es with
      | none => -1
      | some _ => (candFd fds : Int)),
    (match firstMatch skip dev k inputName es with
      | none => self
      | some e => { self with input_name := e }),
    ⟨(match firstMatch skip dev k inputName es with
        | none => fds
        | some e => (candFd fds, dev e) :: fds),
      log ++ Call.sys_opendir dirPath true ::
        (scanLog skip dev k inputName (candFd fds) es ++
          [Call.sys_closedir (lowestFree (fds.map Prod.fst))])⟩)

/-- The result of one phase, computed from what the kernel lists. -/
def phaseResult (skip : String → Bool) (dev : String → String) (k : Kernel)
    (inputName dirPath : String) (self : SensorBase) (fds : List (Nat × String))
    (log : List Call) : Int × SensorBase × World :=
  match k.dir dirPath with
  | none => (-1, self, ⟨fds, log ++ [Call.sys_opendir dirPath false]⟩)
  | some es => phaseDone skip dev k inputName dirPath es self fds log

/-- The bookkeeping invariant between an object and the world after
construction: `data_fd` is `d`, the log has the bad closes `B`, and the table
is `T` with, when `dev_fd` is valid, its entry on top; otherwise `dev_fd = -1`. -/
def Owns (T : List (Nat × String)) (B : List Call) (d : Int) (s : SensorBase)
    (w : World) : Prop :=
  s.data_fd = d ∧ badCloses w.log = B ∧
    ((s.dev_fd = -1 ∧ w.fds = T) ∨
      ∃ (n : Nat) (p : String), s.dev_fd = (n : Int) ∧ w.fds = (n, p) :: T ∧ n ∉ T.map Prod.fst)

/-- The `close` calls of the destructor on an object, in order, each hitting
an open descriptor. -/
def teardownCalls (s : SensorBase) : List Call :=
  (if 0 ≤ s.data_fd then [Call.sys_close s.data_fd true] else []) ++
    (if 0 ≤ s.dev_fd then [Call.sys_close s.dev_fd true] else [])

/-! ## A concrete environment for instantiating the statements -/

/-- A kernel with a symlink directory for `accel` and a raw input directory. -/
def demoKernel : Kernel where
  dir := fun p =>
    if p = "/sys/class/sensor_event/symlink/accel" then
      some ["device", "event0", "event1", "event2"]
    else if p = "/dev/input" then some [".", "..", "event0", "12", "event3"]
    else none
  node := fun p =>
    decide (p = "/dev/inputevent0" ∨ p = "/dev/inputevent1" ∨ p = "/dev/input/event0" ∨
      p = "/dev/input/12" ∨ p = "/dev/ctl")
  evName := fun p =>
    if p = "/dev/inputevent1" ∨ p = "/dev/input/12" then (6, "accel") else (-1, "")
  residue := fun _ => "?"
  wnode := fun p => decide (p = "/sys/class/sensors/sensor_dev/flush")
  writeRet := fun _ bytes => bytes.length

/-- A kernel whose flush control file accepts one byte of every write. -/
def shortWriteKernel : Kernel where
  dir := fun _ => none
  node := fun _ => false
  evName := fun _ => (-1, "")
  residue := fun _ => "?"
  wnode := fun p => decide (p = "/sys/class/sensors/sensor_dev/flush")
  writeRet := fun _ _ => 1

/-- A kernel whose flush control file rejects every write. -/
def failedWriteKernel : Kernel where
  dir := fun _ => none
  node := fun _ => false
  evName := fun _ => (-1, "")
  residue := fun _ => "?"
  wnode := fun p => decide (p = "/sys/class/sensors/sensor_dev/flush")
  writeRet := fun _ _ => -1

/-- A kernel whose raw input directory has one node, `mouse0`, that opens but
does not answer the name query. -/
def unnamedKernel : Kernel where
  dir := fun p => if p = "/dev/input" then some ["mouse0"] else none
  node := fun p => decide (p = "/dev/input/mouse0")
  evName := fun _ => (-1, "")
  residue := fun _ => "?"
  wnode := fun _ => false
  writeRet := fun _ _ => -1

/-- A name of 79 bytes, one more than `EVIOCGNAME(79)` stores with terminator. -/
def name79 : String := ⟨List.replicate 79 'a'⟩

/-- A name of 80 bytes, whose first 79 are `name79`. -/
def name80 : String := ⟨List.replicate 80 'a'⟩

/-- A name of 9000 bytes, more than `sympath` holds. -/
def longName : String := ⟨List.replicate 9000 'a'⟩

/-- A kernel whose raw input directory has one node, `event0`, named `name79`;
the byte at `name[79]` is not 0. -/
def longNameKernel : Kernel where
  dir := fun p => if p = "/dev/input" then some ["event0"] else none
  node := fun p => decide (p = "/dev/input/event0")
  evName := fun _ => (79, name79)
  residue := fun _ => "?"
  wnode := fun _ => false
  writeRet := fun _ _ => -1

/-- A kernel whose raw input directory has one node, `event0`, named `name80`;
the byte at `name[79]` happens to be 0. -/
def truncatedKernel : Kernel where
  dir := fun p => if p = "/dev/input" then some ["event0"] else none
  node := fun p => decide (p = "/dev/input/event0")
  evName := fun _ => (79, name80)
  residue := fun _ => ""
  wnode := fun _ => false
  writeRet := fun _ _ => -1

/-- A kernel without any directory or node. -/
def bareKernel : Kernel where
  dir := fun _ => none
  node := fun _ => false
  evName := fun _ => (-1, "")
  residue := fun _ => "?"
  wnode := fun _ => false
  writeRet := fun _ _ => -1

/-- A process with the three standard descriptors open. -/
def demoWorld : World :=
  ⟨[(0, "/dev/stdin"), (1, "/dev/stdout"), (2, "/dev/stderr")], []⟩

/-- An object as the constructor initialises it, before resolution. -/
def demoSelf : SensorBase :=
  (init (some "/dev/ctl") (some "accel") "" 0)

/-- The object and the world that construction for `accel` leaves on the demo
kernel. -/
def demoConstructed : SensorBase × World :=
  (construct demoKernel (some "/dev/ctl") (some "accel") "" 0 demoWorld).getD
    (demoSelf, demoWorld)

/-! ## Lemmas on the descriptor table -/

theorem lowestFrom_mem (used : List Nat) :
    ∀ fuel k, lowestFrom used fuel k ∈ used → ∀ j, k ≤ j → j ≤ k + fuel → j ∈ used := by
  intro fuel
  induction fuel with
  | zero =>
    intro k h j h1 h2
    have : j = k := by omega
    subst this
    simpa [lowestFrom] using h
  | succ n ih =>
    intro k h j h1 h2
    by_cases hk : k ∈ used
    · rw [lowestFrom, if_pos hk] at h
      rcases Nat.eq_or_lt_of_le h1 with e | l
      · subst e; exact hk
      · exact ih (k + 1) h j l (by omega)
    · rw [lowestFrom, if_neg hk] at h
      exact absurd h hk

theorem lowestFree_not_mem (used : List Nat) : lowestFree used ∉ used := by
  intro h
  have hall : ∀ j, j ≤ used.length → j ∈ used := fun j hj =>
    lowestFrom_mem used used.length 0 h j (Nat.zero_le j) (by omega)
  have hsub : Finset.range (used.length + 1) ⊆ used.toFinset := by
    intro j hj
    rw [Finset.mem_range] at hj
    exact List.mem_toFinset.mpr (hall j (by omega))
  have h1 := Finset.card_le_card hsub
  have h2 := List.toFinset_card_le used
  rw [Finset.card_range] at h1
  omega

theorem lowestFrom_lowest (used : List Nat) :
    ∀ fuel k j, k ≤ j → j < lowestFrom used fuel k → j ∈ used := by
  intro fuel
  induction fuel with
  | zero =>
    intro k j h1 h2
    simp only [lowestFrom] at h2
    omega
  | succ n ih =>
    intro k j h1 h2
    by_cases hk : k ∈ used
    · rw [lowestFrom, if_pos hk] at h2
      rcases Nat.eq_or_lt_of_le h1 with e | l
      · subst e; exact hk
      · exact ih (k + 1) j l h2
    · rw [lowestFrom, if_neg hk] at h2
      omega

theorem lowestFree_lowest (used : List Nat) (j : Nat) (h : j < lowestFree used) :
    j ∈ used :=
  lowestFrom_lowest used used.length 0 j (Nat.zero_le j) h

theorem filter_fresh (l : List (Nat × String)) (n : Nat) (h : n ∉ l.map Prod.fst) :
    l.filter (fun e => !decide ((e.1 : Int) = (n : Int))) = l := by
  rw [List.filter_eq_self]
  intro e he
  have : e.1 ≠ n := by
    intro c
    exact h (List.mem_map.mpr ⟨e, he, c⟩)
  simpa using this

theorem release_fresh (fds : List (Nat × String)) (log : List Call) (n : Nat) (p : String)
    (h : n ∉ fds.map Prod.fst) :
    World.release ⟨(n, p) :: fds, log⟩ (n : Int) = fds := by
  have hf := filter_fresh fds n h
  simp only [World.release, List.filter_cons]
  simp only [decide_True, Bool.not_true]
  simpa using hf

theorem release_other (fds : List (Nat × String)) (log : List Call) (n m : Nat) (p : String)
    (h : m ≠ n) :
    World.release ⟨(m, p) :: fds, log⟩ (n : Int) = (m, p) :: World.release ⟨fds, log⟩ (n : Int) := by
  simp [World.release, List.filter_cons, h]

theorem pathOf_head (fds : List (Nat × String)) (log : List Call) (n : Nat) (p : String) :
    World.pathOf ⟨(n, p) :: fds, log⟩ (n : Int) = some p := by
  simp [World.pathOf]

theorem isOpen_head (fds : List (Nat × String)) (log : List Call) (n : Nat) (p : String) :
    World.isOpen ⟨(n, p) :: fds, log⟩ (n : Int) = true := by
  simp [World.isOpen]

/-! ## The scan, step by step -/

theorem sys_open_ok (k : Kernel) (fds : List (Nat × String)) (log : List Call) (path : String)
    (h : k.node path = true) :
    sys_open k ⟨fds, log⟩ path =
      ((lowestFree (fds.map Prod.fst) : Int),
        ⟨(lowestFree (fds.map Prod.fst), path) :: fds,
          log ++ [Call.sys_open path (lowestFree (fds.map Prod.fst))]⟩) := by
  simp [sys_open, h, World.used]

theorem sys_open_fail (k : Kernel) (fds : List (Nat × String)) (log : List Call) (path : String)
    (h : k.node path = false) :
    sys_open k ⟨fds, log⟩ path = (-1, ⟨fds, log ++ [Call.sys_open path (-1)]⟩) := by
  simp [sys_open, h]

theorem queryName_head (k : Kernel) (fds : List (Nat × String)) (log : List Call) (n : Nat)
    (p : String) :
    queryName k ⟨(n, p) :: fds, log⟩ (n : Int) =
      (bufferedName k p, ⟨(n, p) :: fds, log ++ [Call.sys_ioctl n (k.evName p).1]⟩) := by
  simp [queryName, sys_ioctl_name, pathOf_head, bufferedName]

theorem sys_close_head (fds : List (Nat × String)) (log : List Call) (n : Nat) (p : String)
    (h : n ∉ fds.map Prod.fst) :
    sys_close ⟨(n, p) :: fds, log⟩ (n : Int) = ⟨fds, log ++ [Call.sys_close n true]⟩ := by
  simp only [sys_close, release_fresh fds log n p h, isOpen_head]

theorem scanLoop_eq (skip : String → Bool) (dev : String → String) (k : Kernel)
    (inputName : String) (self : SensorBase) :
    ∀ (es : List String) (fds : List (Nat × String)) (log : List Call),
      scanLoop skip dev k inputName es (-1) self ⟨fds, log⟩ =
        match firstMatch skip dev k inputName es with
        | none =>
          (-1, self,
            ⟨fds, log ++ scanLog skip dev k inputName (lowestFree (fds.map Prod.fst)) es⟩)
        | some e =>
          ((lowestFree (fds.map Prod.fst) : Int), { self with input_name := e },
            ⟨(lowestFree (fds.map Prod.fst), dev e) :: fds,
              log ++ scanLog skip dev k inputName (lowestFree (fds.map Prod.fst)) es⟩) := by
  intro es
  induction es with
  | nil => intro fds log; simp [scanLoop, firstMatch, scanLog]
  | cons de rest ih =>
    intro fds log
    by_cases hs : skip de = true
    · simp only [scanLoop, firstMatch, scanLog, hs, if_true]
      exact ih fds log
    · have hs2 : skip de = false := by simpa using hs
      by_cases hn : k.node (dev de) = true
      · have hfresh := lowestFree_not_mem (fds.map Prod.fst)
        have hge : ((lowestFree (fds.map Prod.fst) : Nat) : Int) ≥ 0 := Int.ofNat_nonneg _
        by_cases hm : bufferedName k (dev de) = inputName
        · simp only [scanLoop, firstMatch, scanLog, hs2, sys_open_ok k fds log _ hn,
            queryName_head, hm, nodeMatches, hn, hge]
          simp
        · simp only [scanLoop, firstMatch, scanLog, hs2, sys_open_ok k fds log _ hn,
            queryName_head, hm, nodeMatches, hn, hge]
          simp only [Bool.false_eq_true, if_false, if_true, decide_False, Bool.and_false,
            sys_close_head _ _ _ _ hfresh]
          rw [ih fds]
          simp [List.append_assoc]
      · have hn2 : k.node (dev de) = false := by simpa using hn
        simp only [scanLoop, firstMatch, scanLog, hs2, sys_open_fail k fds log _ hn2,
          nodeMatches, hn2]
        simp only [Bool.false_eq_true, if_false, Bool.false_and]
        have : ¬ ((-1 : Int) ≥ 0) := by decide
        simp only [this, if_false]
        rw [ih fds]
        simp [List.append_assoc]

theorem openLinkLoop_eq_scanLoop (k : Kernel) (inputName : String) :
    ∀ (es : List String) (fd : Int) (self : SensorBase) (w : World),
      openLinkLoop k inputName es fd self w =
        scanLoop (fun d => !eventPrefix d) linkDevname k inputName es fd self w := by
  intro es
  induction es with
  | nil => intro fd self w; rfl
  | cons de rest ih =>
    intro fd self w
    simp only [openLinkLoop, scanLoop, ih]

theorem openInputLoop_eq_scanLoop (k : Kernel) (inputName : String) :
    ∀ (es : List String) (fd : Int) (self : SensorBase) (w : World),
      openInputLoop k inputName es fd self w =
        scanLoop dotEntry inputDevname k inputName es fd self w := by
  intro es
  induction es with
  | nil => intro fd self w; rfl
  | cons de rest ih =>
    intro fd self w
    simp only [openInputLoop, scanLoop, ih]

theorem candFd_ne_dir (fds : List (Nat × String)) :
    candFd fds ≠ lowestFree (fds.map Prod.fst) := by
  intro h
  have := lowestFree_not_mem (lowestFree (fds.map Prod.fst) :: fds.map Prod.fst)
  apply this
  unfold candFd at h
  rw [h]
  exact List.mem_cons_self _ _

theorem candFd_not_mem (fds : List (Nat × String)) : candFd fds ∉ fds.map Prod.fst := by
  intro h
  have := lowestFree_not_mem (lowestFree (fds.map Prod.fst) :: fds.map Prod.fst)
  exact this (List.mem_cons_of_mem _ h)

theorem scan_done_eq (skip : String → Bool) (dev : String → String) (k : Kernel)
    (inputName dirPath : String) (es : List String) (self : SensorBase)
    (fds : List (Nat × String)) (log : List Call) :
    ((scanLoop skip dev k inputName es (-1) self
          ⟨(lowestFree (fds.map Prod.fst), dirPath) :: fds,
            log ++ [Call.sys_opendir dirPath true]⟩).1,
        (scanLoop skip dev k inputName es (-1) self
          ⟨(lowestFree (fds.map Prod.fst), dirPath) :: fds,
            log ++ [Call.sys_opendir dirPath true]⟩).2.1,
        sys_closedir (scanLoop skip dev k inputName es (-1) self
          ⟨(lowestFree (fds.map Prod.fst), dirPath) :: fds,
            log ++ [Call.sys_opendir dirPath true]⟩).2.2
          (lowestFree (fds.map Prod.fst) : Int)) =
      phaseDone skip dev k inputName dirPath es self fds log := by
  unfold phaseDone
  rw [scanLoop_eq]
  have hdir := lowestFree_not_mem (fds.map Prod.fst)
  cases hm : firstMatch skip dev k inputName es with
  | none =>
    simp only [sys_closedir, release_fresh fds _ _ _ hdir, candFd, List.map_cons]
    simp [List.append_assoc]
  | some e =>
    have hne := candFd_ne_dir fds
    simp only [sys_closedir, List.map_cons]
    rw [show lowestFree (lowestFree (fds.map Prod.fst) :: fds.map Prod.fst) = candFd fds
      from rfl]
    rw [release_other _ _ _ _ _ hne, release_fresh fds _ _ _ hdir]
    simp [List.append_assoc]

theorem openInput_eq (k : Kernel) (inputName : String) (self : SensorBase)
    (fds : List (Nat × String)) (log : List Call) :
    openInput k inputName self ⟨fds, log⟩ =
      phaseResult dotEntry inputDevname k inputName "/dev/input" self fds log := by
  unfold openInput phaseResult sys_opendir
  cases hd : k.dir "/dev/input" with
  | none => rfl
  | some es =>
    simp only [World.used, openInputLoop_eq_scanLoop]
    exact scan_done_eq dotEntry inputDevname k inputName "/dev/input" es self fds log

/-- The outcomes of `openLink` when it returns. -/
theorem openLink_shape (k : Kernel) (inputName : String) (self : SensorBase)
    (fds : List (Nat × String)) (log : List Call) (r : Int × SensorBase × World)
    (h : openLink k inputName self ⟨fds, log⟩ = some r) :
    r = (-1, self, ⟨fds, log ++ [Call.sys_opendir (symPath inputName) false]⟩) ∨
      ∃ es, r = phaseDone (fun d => !eventPrefix d) linkDevname k inputName
        (symPath inputName) es self fds log := by
  unfold openLink at h
  split at h
  · unfold sys_opendir at h
    cases hd : k.dir (symPath inputName) with
    | none =>
      simp only [hd] at h
      left
      exact (Option.some.inj h).symm
    | some es =>
      simp only [hd, World.used, openLinkLoop_eq_scanLoop] at h
      split at h
      · right
        refine ⟨sympathEntries inputName es, ?_⟩
        rw [← scan_done_eq]
        exact (Option.some.inj h).symm
      · exact Option.noConfusion h
  · exact Option.noConfusion h

theorem symPath_length (inputName : String) :
    (symPath inputName).length = 32 + inputName.length := by
  unfold symPath
  rw [String.length_append]
  rfl

theorem sympathEntries_all (inputName : String) (es : List String)
    (hlen : inputName.length ≤ 78) (hent : ∀ x ∈ es, x.length ≤ 255) :
    sympathEntries inputName es = es := by
  unfold sympathEntries
  rw [List.takeWhile_eq_self_iff]
  intro x hx
  have h1 := hent x hx
  have h2 := symPath_length inputName
  have : sympathHolds inputName x = true := by
    unfold sympathHolds PATH_MAX
    rw [decide_eq_true_iff]
    omega
  simp [this]

/-- With a name of at most 78 bytes and entries of at most 255 bytes no copy
overruns `sympath`, and `openLink` returns the result of the scan. -/
theorem openLink_eq (k : Kernel) (inputName : String) (self : SensorBase)
    (fds : List (Nat × String)) (log : List Call)
    (hlen : inputName.length ≤ 78)
    (hent : ∀ x ∈ (k.dir (symPath inputName)).getD [], x.length ≤ 255) :
    openLink k inputName self ⟨fds, log⟩ =
      some (phaseResult (fun d => !eventPrefix d) linkDevname k inputName
        (symPath inputName) self fds log) := by
  have h2 := symPath_length inputName
  have hfit : (symPath inputName).length + 1 ≤ PATH_MAX := by
    unfold PATH_MAX
    omega
  unfold openLink phaseResult sys_opendir
  rw [if_pos hfit]
  cases hd : k.dir (symPath inputName) with
  | none => rfl
  | some es =>
    rw [hd] at hent
    simp only [World.used, openLinkLoop_eq_scanLoop,
      sympathEntries_all inputName es hlen hent, or_true, if_true]
    rw [← scan_done_eq]

/-! ## Facts on the outcome of a scan -/

theorem openedPaths_append (a b : List Call) :
    openedPaths (a ++ b) = openedPaths a ++ openedPaths b := by
  simp [openedPaths, List.filterMap_append]

theorem openedDirs_append (a b : List Call) :
    openedDirs (a ++ b) = openedDirs a ++ openedDirs b := by
  simp [openedDirs, List.filterMap_append]

theorem badCloses_append (a b : List Call) :
    badCloses (a ++ b) = badCloses a ++ badCloses b := by
  simp [badCloses, List.filter_append]

theorem openedPaths_open (p : String) (r : Int) (l : List Call) :
    openedPaths (Call.sys_open p r :: l) = p :: openedPaths l := by
  simp [openedPaths]

theorem openedPaths_ioctl (f r : Int) (l : List Call) :
    openedPaths (Call.sys_ioctl f r :: l) = openedPaths l := by
  simp [openedPaths]

theorem openedPaths_close (f : Int) (b : Bool) (l : List Call) :
    openedPaths (Call.sys_close f b :: l) = openedPaths l := by
  simp [openedPaths]

theorem firstMatch_none (skip : String → Bool) (dev : String → String) (k : Kernel)
    (inputName : String) :
    ∀ es : List String,
      (∀ e ∈ es, skip e = false → k.node (dev e) = true →
        bufferedName k (dev e) ≠ inputName) →
      firstMatch skip dev k inputName es = none := by
  intro es
  induction es with
  | nil => intro _; rfl
  | cons de rest ih =>
    intro h
    have hrest := ih (fun e he => h e (List.mem_cons_of_mem _ he))
    by_cases hs : skip de = true
    · simp [firstMatch, hs, hrest]
    · have hs2 : skip de = false := by simpa using hs
      by_cases hn : k.node (dev de) = true
      · have := h de (List.mem_cons_self _ _) hs2 hn
        simp [firstMatch, hs2, nodeMatches, hn, this, hrest]
      · simp [firstMatch, hs2, nodeMatches, hn, hrest]

theorem firstMatch_split (skip : String → Bool) (dev : String → String) (k : Kernel)
    (inputName : String) (fd : Nat) (e : String) (post : List String)
    (hs : skip e = false) (hn : k.node (dev e) = true)
    (hm : bufferedName k (dev e) = inputName) :
    ∀ pre : List String,
      (∀ x ∈ pre, skip x = false → k.node (dev x) = true →
        bufferedName k (dev x) ≠ inputName) →
      firstMatch skip dev k inputName (pre ++ e :: post) = some e ∧
      openedPaths (scanLog skip dev k inputName fd (pre ++ e :: post)) =
        (pre.filter (fun x => !skip x)).map dev ++ [dev e] := by
  intro pre
  induction pre with
  | nil =>
    intro _
    simp [firstMatch, scanLog, hs, nodeMatches, hn, hm, openedPaths]
  | cons de rest ih =>
    intro h
    have hrest := ih (fun x hx => h x (List.mem_cons_of_mem _ hx))
    by_cases hsd : skip de = true
    · simp [firstMatch, scanLog, hsd, hrest.1, hrest.2]
    · have hs2 : skip de = false := by simpa using hsd
      by_cases hnd : k.node (dev de) = true
      · have hne := h de (List.mem_cons_self _ _) hs2 hnd
        refine ⟨by simp [firstMatch, hs2, nodeMatches, hnd, hne, hrest.1], ?_⟩
        simp only [List.cons_append, scanLog, hs2, hnd, hne, if_true, if_false,
          Bool.false_eq_true, openedPaths_open, openedPaths_ioctl, openedPaths_close,
          List.filter_cons]
        simpa [hs2] using hrest.2
      · have hnd2 : k.node (dev de) = false := by simpa using hnd
        refine ⟨by simp [firstMatch, hs2, nodeMatches, hnd2, hrest.1], ?_⟩
        simp only [List.cons_append, scanLog, hs2, hnd2, if_false, Bool.false_eq_true,
          openedPaths_open, List.filter_cons]
        simpa [hs2] using hrest.2

theorem scanLog_quiet (skip : String → Bool) (dev : String → String) (k : Kernel)
    (inputName : String) (fd : Nat) :
    ∀ es : List String,
      openedDirs (scanLog skip dev k inputName fd es) = [] ∧
      badCloses (scanLog skip dev k inputName fd es) = [] := by
  intro es
  induction es with
  | nil => simp [scanLog, openedDirs, badCloses]
  | cons de rest ih =>
    by_cases hs : skip de = true
    · simpa [scanLog, hs] using ih
    · have hs2 : skip de = false := by simpa using hs
      by_cases hn : k.node (dev de) = true
      · by_cases hm : bufferedName k (dev de) = inputName
        · simp [scanLog, hs2, hn, hm, openedDirs, badCloses]
        · simp only [scanLog, hs2, hn, hm, if_true, if_false, Bool.false_eq_true,
            openedDirs_append, badCloses_append, ih.1, ih.2]
          simp [openedDirs, badCloses]
      · have hn2 : k.node (dev de) = false := by simpa using hn
        simp only [scanLog, hs2, hn2, if_false, Bool.false_eq_true]
        rw [show Call.sys_open (dev de) (-1) :: scanLog skip dev k inputName fd rest =
            [Call.sys_open (dev de) (-1)] ++ scanLog skip dev k inputName fd rest from rfl,
          openedDirs_append, badCloses_append, ih.1, ih.2]
        simp [openedDirs, badCloses]

theorem eventPrefix_iff (d_name : String) :
    eventPrefix d_name = true ↔ "event".data <+: d_name.data := by
  unfold eventPrefix
  rw [decide_eq_true_iff, List.prefix_iff_eq_take]
  constructor
  · intro h; exact h.symm
  · intro h; exact h.symm

theorem dotEntry_iff (d_name : String) :
    dotEntry d_name = true ↔ (d_name = "." ∨ d_name = "..") := by
  unfold dotEntry
  rw [String.ext_iff, String.ext_iff]
  rcases hd : d_name.data with _ | ⟨a, _ | ⟨b, _ | ⟨c, t⟩⟩⟩ <;> simp

theorem dotEntry_false (d_name : String) (h1 : d_name ≠ ".") (h2 : d_name ≠ "..") :
    dotEntry d_name = false := by
  cases h : dotEntry d_name with
  | false => rfl
  | true =>
    rcases (dotEntry_iff d_name).mp h with e | e
    · exact absurd e h1
    · exact absurd e h2

theorem phaseDone_log (skip : String → Bool) (dev : String → String) (k : Kernel)
    (inputName dirPath : String) (es : List String) (self : SensorBase)
    (fds : List (Nat × String)) (log : List Call) :
    openedDirs (phaseDone skip dev k inputName dirPath es self fds log).2.2.log =
        openedDirs log ++ [dirPath] ∧
      badCloses (phaseDone skip dev k inputName dirPath es self fds log).2.2.log =
        badCloses log := by
  have hq := scanLog_quiet skip dev k inputName (candFd fds) es
  simp only [phaseDone]
  rw [show ∀ l : List Call, Call.sys_opendir dirPath true :: l =
    [Call.sys_opendir dirPath true] ++ l from fun _ => rfl]
  simp only [openedDirs_append, badCloses_append, hq.1, hq.2]
  simp [openedDirs, badCloses]

theorem phaseResult_log (skip : String → Bool) (dev : String → String) (k : Kernel)
    (inputName dirPath : String) (self : SensorBase) (fds : List (Nat × String))
    (log : List Call) :
    openedDirs (phaseResult skip dev k inputName dirPath self fds log).2.2.log =
        openedDirs log ++ [dirPath] ∧
      badCloses (phaseResult skip dev k inputName dirPath self fds log).2.2.log =
        badCloses log := by
  unfold phaseResult
  cases hd : k.dir dirPath with
  | none => simp [openedDirs, badCloses]
  | some es => exact phaseDone_log skip dev k inputName dirPath es self fds log

theorem phaseDone_cases (skip : String → Bool) (dev : String → String) (k : Kernel)
    (inputName dirPath : String) (es : List String) (self : SensorBase)
    (fds : List (Nat × String)) (log : List Call) :
    ((phaseDone skip dev k inputName dirPath es self fds log).1 = -1 ∧
        (phaseDone skip dev k inputName dirPath es self fds log).2.1 = self ∧
        (phaseDone skip dev k inputName dirPath es self fds log).2.2.fds = fds) ∨
      (∃ e, (phaseDone skip dev k inputName dirPath es self fds log).1 =
          (candFd fds : Int) ∧
        (phaseDone skip dev k inputName dirPath es self fds log).2.1 =
          { self with input_name := e } ∧
        (phaseDone skip dev k inputName dirPath es self fds log).2.2.fds =
          (candFd fds, dev e) :: fds) := by
  unfold phaseDone
  cases hm : firstMatch skip dev k inputName es with
  | none => left; simp
  | some e => right; exact ⟨e, by simp⟩

theorem phaseResult_cases (skip : String → Bool) (dev : String → String) (k : Kernel)
    (inputName dirPath : String) (self : SensorBase) (fds : List (Nat × String))
    (log : List Call) :
    ((phaseResult skip dev k inputName dirPath self fds log).1 = -1 ∧
        (phaseResult skip dev k inputName dirPath self fds log).2.1 = self ∧
        (phaseResult skip dev k inputName dirPath self fds log).2.2.fds = fds) ∨
      (∃ e, (phaseResult skip dev k inputName dirPath self fds log).1 = (candFd fds : Int) ∧
        (phaseResult skip dev k inputName dirPath self fds log).2.1 =
          { self with input_name := e } ∧
        (phaseResult skip dev k inputName dirPath self fds log).2.2.fds =
          (candFd fds, dev e) :: fds) := by
  unfold phaseResult
  cases hd : k.dir dirPath with
  | none => left; simp
  | some es => exact phaseDone_cases skip dev k inputName dirPath es self fds log

theorem phaseResult_none (skip : String → Bool) (dev : String → String) (k : Kernel)
    (inputName dirPath : String) (self : SensorBase) (fds : List (Nat × String))
    (log : List Call)
    (hno : ∀ e ∈ (k.dir dirPath).getD [], skip e = false → k.node (dev e) = true →
      bufferedName k (dev e) ≠ inputName) :
    (phaseResult skip dev k inputName dirPath self fds log).1 = -1 ∧
      (phaseResult skip dev k inputName dirPath self fds log).2.1 = self ∧
      (phaseResult skip dev k inputName dirPath self fds log).2.2.fds = fds := by
  unfold phaseResult
  cases hd : k.dir dirPath with
  | none => simp
  | some es =>
    rw [hd] at hno
    have hm := firstMatch_none skip dev k inputName es hno
    simp [phaseDone, hm]

theorem link_skip_false (x : String) (h : (fun d => !eventPrefix d) x = false) :
    "event".data <+: x.data := by
  have : eventPrefix x = true := by simpa using h
  exact (eventPrefix_iff x).mp this

theorem dotEntry_false_ne (x : String) (h : dotEntry x = false) : x ≠ "." ∧ x ≠ ".." := by
  constructor
  · intro c
    have := (dotEntry_iff x).mpr (Or.inl c)
    rw [h] at this
    exact Bool.noConfusion this
  · intro c
    have := (dotEntry_iff x).mpr (Or.inr c)
    rw [h] at this
    exact Bool.noConfusion this

/-- For an input name of at most 78 bytes the comparison on the 80-byte buffer
decides equality with the name the kernel reports. -/
theorem bufferedName_eq_iff (k : Kernel) (path inputName : String)
    (hlen : inputName.length ≤ 78) :
    bufferedName k path = inputName ↔ reportedName k path = inputName := by
  unfold bufferedName reportedName nameBuffer
  by_cases hr : (k.evName path).1 < 1
  · simp [hr]
  · simp only [hr, if_false]
    by_cases hs : (k.evName path).2.length < 79
    · simp [hs]
    · simp only [hs, if_false]
      have hge : 79 ≤ (k.evName path).2.data.length := by
        have : (k.evName path).2.length = (k.evName path).2.data.length := rfl
        omega
      constructor
      · intro h
        have hl := congrArg String.length h
        simp only [String.length, List.length_append, List.length_take] at hl
        have : min 79 (k.evName path).2.data.length = 79 := min_eq_left hge
        have hi : inputName.data.length ≤ 78 := hlen
        omega
      · intro h
        have hl := congrArg String.length h
        have hi : inputName.length ≤ 78 := hlen
        have : (k.evName path).2.length = (k.evName path).2.data.length := rfl
        omega

/-! ## The object's descriptors across its lifetime -/

theorem openLink_post (k : Kernel) (inputName : String) (self : SensorBase)
    (fds : List (Nat × String)) (log : List Call) (r : Int × SensorBase × World)
    (h : openLink k inputName self ⟨fds, log⟩ = some r) :
    openedDirs r.2.2.log = openedDirs log ++ [symPath inputName] ∧
      badCloses r.2.2.log = badCloses log ∧
      ((r.1 = -1 ∧ r.2.1 = self ∧ r.2.2.fds = fds) ∨
        ∃ e, r.1 = (candFd fds : Int) ∧ r.2.1 = { self with input_name := e } ∧
          r.2.2.fds = (candFd fds, linkDevname e) :: fds) := by
  rcases openLink_shape k inputName self fds log r h with h1 | ⟨es, h1⟩
  · subst h1
    refine ⟨?_, ?_, Or.inl ⟨rfl, rfl, rfl⟩⟩
    · simp [openedDirs]
    · simp [badCloses]
  · subst h1
    have hl := phaseDone_log (fun d => !eventPrefix d) linkDevname k inputName
      (symPath inputName) es self fds log
    exact ⟨hl.1, hl.2, phaseDone_cases (fun d => !eventPrefix d) linkDevname k inputName
      (symPath inputName) es self fds log⟩

theorem construct_none (k : Kernel) (dev_name : Option String) (input_name0 : String)
    (flush_state0 : Int) (w : World) :
    construct k dev_name none input_name0 flush_state0 w =
      some (init dev_name none input_name0 flush_state0, w) := rfl

theorem construct_post (k : Kernel) (dev_name data_name : Option String)
    (input_name0 : String) (flush_state0 : Int) (w : World) (c : SensorBase × World)
    (h : construct k dev_name data_name input_name0 flush_state0 w = some c) :
    c.1.dev_fd = -1 ∧ c.1.data_name = data_name ∧ c.1.dev_name = dev_name ∧
      badCloses c.2.log = badCloses w.log ∧
      ((c.1.data_fd = -1 ∧ c.2.fds = w.fds) ∨
        ∃ (m : Nat) (p : String), c.1.data_fd = (m : Int) ∧ c.2.fds = (m, p) :: w.fds ∧
          m ∉ w.fds.map Prod.fst) := by
  obtain ⟨fds, log⟩ := w
  cases data_name with
  | none =>
    rw [construct_none] at h
    have := Option.some.inj h
    subst this
    simp [init]
  | some name =>
    simp only [construct] at h
    cases ho : openLink k name (init dev_name (some name) input_name0 flush_state0)
        ⟨fds, log⟩ with
    | none => simp [ho] at h
    | some r =>
      obtain ⟨_, hb1, hc1⟩ := openLink_post k name _ fds log r ho
      simp only [ho] at h
      obtain ⟨r1, rs, ⟨rfds, rlog⟩⟩ := r
      simp only at hb1 hc1 h
      rcases hc1 with ⟨a1, a2, a3⟩ | ⟨e, a1, a2, a3⟩
      · subst a1 a2 a3
        have hneg : ((-1 : Int) < 0) := by decide
        simp only [hneg, if_true, openInput_eq] at h
        have hl2 := phaseResult_log dotEntry inputDevname k name "/dev/input"
          (init dev_name (some name) input_name0 flush_state0) rfds rlog
        have hc2 := phaseResult_cases dotEntry inputDevname k name "/dev/input"
          (init dev_name (some name) input_name0 flush_state0) rfds rlog
        generalize phaseResult dotEntry inputDevname k name "/dev/input" _ rfds rlog = r2
          at hl2 hc2 h
        obtain ⟨q1, qs, ⟨qfds, qlog⟩⟩ := r2
        simp only at hl2 hc2 h
        have hc := Option.some.inj h
        subst hc
        rcases hc2 with ⟨b1, b2, b3⟩ | ⟨e, b1, b2, b3⟩
        · subst b1 b2 b3
          exact ⟨rfl, rfl, rfl, by rw [hl2.2, hb1], Or.inl ⟨rfl, rfl⟩⟩
        · subst b1 b2 b3
          exact ⟨rfl, rfl, rfl, by rw [hl2.2, hb1],
            Or.inr ⟨candFd rfds, inputDevname e, rfl, rfl, candFd_not_mem rfds⟩⟩
      · subst a1 a2 a3
        have hnn : ¬ (((candFd fds : Nat) : Int) < 0) := not_lt.mpr (Int.ofNat_nonneg _)
        simp only [hnn, if_false] at h
        have hc := Option.some.inj h
        subst hc
        exact ⟨rfl, rfl, rfl, hb1,
          Or.inr ⟨candFd fds, linkDevname e, rfl, rfl, candFd_not_mem fds⟩⟩

theorem flush_world (k : Kernel) (handle : Int) (self : SensorBase)
    (fds : List (Nat × String)) (log : List Call) :
    (flush k handle self ⟨fds, log⟩).2.1.dev_fd = self.dev_fd ∧
      (flush k handle self ⟨fds, log⟩).2.1.data_fd = self.data_fd ∧
      (flush k handle self ⟨fds, log⟩).2.2.fds = fds ∧
      badCloses (flush k handle self ⟨fds, log⟩).2.2.log = badCloses log := by
  have hfresh := lowestFree_not_mem (fds.map Prod.fst)
  by_cases hw : k.wnode flushPath = true
  · have hge : ((lowestFree (fds.map Prod.fst) : Nat) : Int) ≥ 0 := Int.ofNat_nonneg _
    simp only [flush, sys_open_wr, hw, if_true, World.used, hge, sys_write, pathOf_head,
      sys_close_head _ _ _ _ hfresh]
    split <;> simp [badCloses]
  · have hw2 : k.wnode flushPath = false := by simpa using hw
    have hneg : ¬ ((-1 : Int) ≥ 0) := by decide
    simp [flush, sys_open_wr, hw2, hneg, badCloses]

theorem invoke_owns (k : Kernel) (m : Method) (T : List (Nat × String)) (B : List Call)
    (d : Int) (s : SensorBase) (w : World) (h : Owns T B d s w) :
    Owns T B d (invoke k m s w).2.1 (invoke k m s w).2.2 := by
  obtain ⟨fds, log⟩ := w
  obtain ⟨hd, hb, hcase⟩ := h
  cases m with
  | getFd => exact ⟨hd, hb, hcase⟩
  | flush handle =>
    obtain ⟨f1, f2, f3, f4⟩ := flush_world k handle s fds log
    refine ⟨by simp only [invoke]; rw [f2]; exact hd,
      by simp only [invoke]; rw [f4]; exact hb, ?_⟩
    simp only [invoke]
    rw [f1, f3]
    exact hcase
  | close_device =>
    rcases hcase with ⟨c1, c2⟩ | ⟨n, p, c1, c2, c3⟩
    · have hneg : ¬ ((-1 : Int) ≥ 0) := by decide
      simp only [invoke, close_device, c1, hneg, if_false]
      exact ⟨hd, hb, Or.inl ⟨c1, c2⟩⟩
    · have hge : ((n : Nat) : Int) ≥ 0 := Int.ofNat_nonneg _
      simp only at c2
      subst c2
      simp only [invoke, close_device, c1, hge, if_true, sys_close_head _ _ _ _ c3]
      refine ⟨hd, ?_, Or.inl ⟨rfl, rfl⟩⟩
      rw [badCloses_append, hb]
      simp [badCloses]
  | open_device =>
    rcases hcase with ⟨c1, c2⟩ | ⟨n, p, c1, c2, c3⟩
    · have hneg : ((-1 : Int) < 0) := by decide
      simp only at c2
      subst c2
      simp only [invoke, open_device, c1, hneg, if_true]
      cases hn : s.dev_name with
      | none => exact ⟨hd, hb, Or.inl ⟨c1, rfl⟩⟩
      | some name =>
        by_cases ho : k.node name = true
        · simp only [sys_open_ok k fds log name ho]
          refine ⟨hd, ?_, Or.inr ⟨_, name, rfl, rfl, lowestFree_not_mem _⟩⟩
          rw [badCloses_append, hb]
          simp [badCloses]
        · have ho2 : k.node name = false := by simpa using ho
          simp only [sys_open_fail k fds log name ho2]
          refine ⟨hd, ?_, Or.inl ⟨rfl, rfl⟩⟩
          rw [badCloses_append, hb]
          simp [badCloses]
    · have hnn : ¬ (((n : Nat) : Int) < 0) := not_lt.mpr (Int.ofNat_nonneg _)
      simp only [invoke, open_device, c1, hnn, if_false]
      exact ⟨hd, hb, Or.inr ⟨n, p, c1, c2, c3⟩⟩

theorem invokeAll_owns (k : Kernel) (T : List (Nat × String)) (B : List Call) (d : Int) :
    ∀ (ms : List Method) (s : SensorBase) (w : World), Owns T B d s w →
      Owns T B d (invokeAll k ms s w).1 (invokeAll k ms s w).2 := by
  intro ms
  induction ms with
  | nil => intro s w h; exact h
  | cons m rest ih =>
    intro s w h
    simp only [invokeAll]
    exact ih _ _ (invoke_owns k m T B d s w h)

theorem construct_owns (k : Kernel) (dev_name data_name : Option String)
    (input_name0 : String) (flush_state0 : Int) (w : World) (c : SensorBase × World)
    (h : construct k dev_name data_name input_name0 flush_state0 w = some c) :
    Owns c.2.fds (badCloses w.log) c.1.data_fd c.1 c.2 := by
  obtain ⟨h1, _, _, h4, _⟩ :=
    construct_post k dev_name data_name input_name0 flush_state0 w c h
  exact ⟨rfl, h4, Or.inl ⟨h1, rfl⟩⟩

theorem badCloses_teardown (s : SensorBase) : badCloses (teardownCalls s) = [] := by
  unfold teardownCalls
  split <;> split <;> simp [badCloses]

theorem destruct_eq (T0 T1 : List (Nat × String)) (B : List Call) (s : SensorBase) (w : World)
    (hdata : (s.data_fd = -1 ∧ T1 = T0) ∨
      ∃ (m : Nat) (p : String), s.data_fd = (m : Int) ∧ T1 = (m, p) :: T0 ∧
        m ∉ T0.map Prod.fst)
    (hown : Owns T1 B s.data_fd s w) :
    (destruct s w).fds = T0 ∧ (destruct s w).log = w.log ++ teardownCalls s := by
  obtain ⟨fds, log⟩ := w
  obtain ⟨_, _, hdev⟩ := hown
  have hneg : ¬ ((-1 : Int) ≥ 0) := by decide
  have hneg2 : ¬ ((0 : Int) ≤ -1) := by decide
  rcases hdata with ⟨d1, d2⟩ | ⟨m, p, d1, d2, d3⟩
  · subst d2
    rcases hdev with ⟨c1, c2⟩ | ⟨n, q, c1, c2, c3⟩
    · simp only at c2
      subst c2
      simp [destruct, teardownCalls, d1, c1]
    · simp only at c2
      subst c2
      have hge : ((n : Nat) : Int) ≥ 0 := Int.ofNat_nonneg _
      have hge2 : (0 : Int) ≤ ((n : Nat) : Int) := Int.ofNat_nonneg _
      simp only [destruct, teardownCalls, d1, c1, hneg, hneg2, if_false, hge, hge2, if_true,
        sys_close_head _ _ _ _ c3]
      simp
  · subst d2
    have hgm : ((m : Nat) : Int) ≥ 0 := Int.ofNat_nonneg _
    have hgm2 : (0 : Int) ≤ ((m : Nat) : Int) := Int.ofNat_nonneg _
    rcases hdev with ⟨c1, c2⟩ | ⟨n, q, c1, c2, c3⟩
    · simp only at c2
      subst c2
      simp only [destruct, teardownCalls, d1, c1, hneg, hneg2, if_false, hgm, hgm2, if_true,
        sys_close_head _ _ _ _ d3]
      simp
    · simp only at c2
      subst c2
      have hge : ((n : Nat) : Int) ≥ 0 := Int.ofNat_nonneg _
      have hge2 : (0 : Int) ≤ ((n : Nat) : Int) := Int.ofNat_nonneg _
      have hnm : n ≠ m := by
        intro c
        apply c3
        simp [c]
      have hn0 : n ∉ T0.map Prod.fst := by
        intro c
        apply c3
        simp only [List.map_cons, List.mem_cons]
        exact Or.inr c
      have hclose1 : sys_close ⟨(n, q) :: (m, p) :: T0, log⟩ (m : Int) =
          ⟨(n, q) :: T0, log ++ [Call.sys_close m true]⟩ := by
        simp only [sys_close, release_other _ _ _ _ _ hnm, release_fresh T0 log m p d3]
        simp [World.isOpen]
      simp only [destruct, teardownCalls, d1, c1, hgm, hgm2, hge, hge2, if_true, hclose1,
        sys_close_head _ _ _ _ hn0]
      simp

/-! ## flush -/

theorem toInt32_small (x : Int) (h0 : 0 ≤ x) (h1 : x < 2 ^ 31) : toInt32 x = x := by
  unfold toInt32
  rw [Int.emod_eq_of_lt (by omega) (by omega)]
  omega

theorem shl1_small (h : Nat) (hh : h ≤ 30) : shl1 (h : Int) = ((2 ^ h : Nat) : Int) := by
  unfold shl1
  rw [Int.toNat_ofNat]
  have hlt : (2 : Int) ^ h < 2 ^ 31 := by
    have : (2 : Nat) ^ h < 2 ^ 31 := Nat.pow_lt_pow_right (by decide) (by omega)
    exact_mod_cast this
  rw [toInt32_small _ (by positivity) hlt]
  push_cast
  rfl

theorem testBit_shl1 (h : Nat) (hh : h ≤ 30) (i : Nat) :
    (shl1 (h : Int)).testBit i = decide (h = i) := by
  rw [shl1_small h hh]
  show Nat.testBit (2 ^ h) i = decide (h = i)
  exact Nat.testBit_two_pow

theorem flush_open_ok (k : Kernel) (handle : Int) (self : SensorBase)
    (fds : List (Nat × String)) (log : List Call) (hopen : k.wnode flushPath = true) :
    flush k handle self ⟨fds, log⟩ =
      (k.writeRet flushPath (cstrBytes (sprintf_d handle)),
        { self with flush_state :=
            if k.writeRet flushPath (cstrBytes (sprintf_d handle)) < 0 then
              Int.land (Int.lor self.flush_state (shl1 handle)) (Int.lnot (shl1 handle))
            else Int.lor self.flush_state (shl1 handle) },
        ⟨fds, log ++ [Call.sys_open flushPath (lowestFree (fds.map Prod.fst)),
          Call.sys_write (lowestFree (fds.map Prod.fst)) (cstrBytes (sprintf_d handle))
            (k.writeRet flushPath (cstrBytes (sprintf_d handle))),
          Call.sys_close (lowestFree (fds.map Prod.fst)) true]⟩) := by
  have hfresh := lowestFree_not_mem (fds.map Prod.fst)
  have hge : ((lowestFree (fds.map Prod.fst) : Nat) : Int) ≥ 0 := Int.ofNat_nonneg _
  simp only [flush, sys_open_wr, hopen, if_true, World.used, hge, sys_write, pathOf_head,
    sys_close_head _ _ _ _ hfresh]
  split <;> simp

/-! ## C1: the first matching entry wins -/

/-- C1, the claim as stated fails at a name of 79 bytes: the only entry of the
raw directory is eligible, opens and is named exactly `name79`, the kernel
stores its 79 bytes without terminator, the byte found at `name[79]` is not 0,
and `openInput` for `name79` returns -1 with no descriptor left open. -/
theorem first_match_missed_at_79_bytes :
    longNameKernel.dir "/dev/input" = some ([] ++ "event0" :: []) ∧
      "event0" ≠ "." ∧ "event0" ≠ ".." ∧
      longNameKernel.node (inputDevname "event0") = true ∧
      reportedName longNameKernel (inputDevname "event0") = name79 ∧
      (openInput longNameKernel name79 demoSelf demoWorld).1 = -1 ∧
      (openInput longNameKernel name79 demoSelf demoWorld).2.2.fds = demoWorld.fds := by
  decide

/-- C1 as amended: for an input name of at most 78 bytes, in either phase,
when the directory lists `pre ++ e :: post` (in the symlink phase with entries
of at most 255 bytes) and `e` is the first eligible entry whose node opens and
reports the input name, the phase returns a valid descriptor open on the node
of `e`, stores `e` in `input_name` (no other field changes), and the paths it
gave to `open` are those of the eligible entries of `pre` followed by that of
`e`: nothing after `e` is opened. -/
theorem first_match_wins (k : Kernel) (inputName : String) (self : SensorBase) (w : World)
    (pre post : List String) (e : String) (hlen : inputName.length ≤ 78) :
    (k.dir (symPath inputName) = some (pre ++ e :: post) →
      (∀ x ∈ pre ++ e :: post, x.length ≤ 255) →
      "event".data <+: e.data →
      k.node (linkDevname e) = true →
      reportedName k (linkDevname e) = inputName →
      (∀ x ∈ pre, "event".data <+: x.data → k.node (linkDevname x) = true →
        reportedName k (linkDevname x) ≠ inputName) →
      ∃ r, openLink k inputName self w = some r ∧
        0 ≤ r.1 ∧
        r.2.2.pathOf r.1 = some (linkDevname e) ∧
        r.2.1 = { self with input_name := e } ∧
        openedPaths r.2.2.log =
          openedPaths w.log ++ ((pre.filter eventPrefix).map linkDevname ++ [linkDevname e]))
    ∧
    (k.dir "/dev/input" = some (pre ++ e :: post) →
      e ≠ "." → e ≠ ".." →
      k.node (inputDevname e) = true →
      reportedName k (inputDevname e) = inputName →
      (∀ x ∈ pre, x ≠ "." → x ≠ ".." → k.node (inputDevname x) = true →
        reportedName k (inputDevname x) ≠ inputName) →
      0 ≤ (openInput k inputName self w).1 ∧
      (openInput k inputName self w).2.2.pathOf (openInput k inputName self w).1 =
        some (inputDevname e) ∧
      (openInput k inputName self w).2.1 = { self with input_name := e } ∧
      openedPaths (openInput k inputName self w).2.2.log =
        openedPaths w.log ++
          ((pre.filter (fun x => !dotEntry x)).map inputDevname ++ [inputDevname e])) := by
  obtain ⟨fds, log⟩ := w
  constructor
  · intro hdir hent hpre hn hm hfirst
    have hs : (fun d => !eventPrefix d) e = false := by
      simp [(eventPrefix_iff e).mpr hpre]
    have hfirst2 : ∀ x ∈ pre, (fun d => !eventPrefix d) x = false →
        k.node (linkDevname x) = true → bufferedName k (linkDevname x) ≠ inputName := by
      intro x hx hsx hnx hb
      exact hfirst x hx (link_skip_false x hsx) hnx
        ((bufferedName_eq_iff k _ inputName hlen).mp hb)
    have hsplit := firstMatch_split (fun d => !eventPrefix d) linkDevname k inputName
      (candFd fds) e post hs hn ((bufferedName_eq_iff k _ inputName hlen).mpr hm) pre hfirst2
    have hent2 : ∀ x ∈ (k.dir (symPath inputName)).getD [], x.length ≤ 255 := by
      rw [hdir]
      exact hent
    refine ⟨_, openLink_eq k inputName self fds log hlen hent2, ?_⟩
    simp only [phaseResult, hdir, phaseDone, hsplit.1]
    refine ⟨Int.ofNat_nonneg _, pathOf_head _ _ _ _, trivial, ?_⟩
    rw [openedPaths_append]
    simp only [openedPaths, List.filterMap_cons, List.filterMap_append]
    have h2 := hsplit.2
    simp only [openedPaths] at h2
    rw [h2]
    simp
  · intro hdir h1 h2 hn hm hfirst
    have hs : dotEntry e = false := dotEntry_false e h1 h2
    have hfirst2 : ∀ x ∈ pre, dotEntry x = false →
        k.node (inputDevname x) = true → bufferedName k (inputDevname x) ≠ inputName := by
      intro x hx hsx hnx hb
      exact hfirst x hx (dotEntry_false_ne x hsx).1 (dotEntry_false_ne x hsx).2 hnx
        ((bufferedName_eq_iff k _ inputName hlen).mp hb)
    have hsplit := firstMatch_split dotEntry inputDevname k inputName
      (candFd fds) e post hs hn ((bufferedName_eq_iff k _ inputName hlen).mpr hm) pre hfirst2
    rw [openInput_eq]
    simp only [phaseResult, hdir, phaseDone, hsplit.1]
    refine ⟨Int.ofNat_nonneg _, pathOf_head _ _ _ _, trivial, ?_⟩
    rw [openedPaths_append]
    simp only [openedPaths, List.filterMap_cons, List.filterMap_append]
    have h2 := hsplit.2
    simp only [openedPaths] at h2
    rw [h2]
    simp

/-- Witness of the amended C1 on the demo kernel: the symlink phase stops at
`event1`, the raw phase at `12`. -/
theorem first_match_wins_witness :
    (∃ r, openLink demoKernel "accel" demoSelf demoWorld = some r ∧
      0 ≤ r.1 ∧
      r.2.2.pathOf r.1 = some (linkDevname "event1") ∧
      r.2.1 = { demoSelf with input_name := "event1" } ∧
      openedPaths r.2.2.log =
        openedPaths demoWorld.log ++
          ((["device", "event0"].filter eventPrefix).map linkDevname ++
            [linkDevname "event1"]))
    ∧
    (0 ≤ (openInput demoKernel "accel" demoSelf demoWorld).1 ∧
      (openInput demoKernel "accel" demoSelf demoWorld).2.2.pathOf
          (openInput demoKernel "accel" demoSelf demoWorld).1 =
        some (inputDevname "12") ∧
      (openInput demoKernel "accel" demoSelf demoWorld).2.1 =
        { demoSelf with input_name := "12" } ∧
      openedPaths (openInput demoKernel "accel" demoSelf demoWorld).2.2.log =
        openedPaths demoWorld.log ++
          (([".", "..", "event0"].filter (fun x => !dotEntry x)).map inputDevname ++
            [inputDevname "12"])) :=
  ⟨(first_match_wins demoKernel "accel" demoSelf demoWorld ["device", "event0"] ["event2"]
      "event1" (by decide)).1 (by decide) (by decide) (by decide) (by decide) (by decide)
      (by decide),
    (first_match_wins demoKernel "accel" demoSelf demoWorld [".", "..", "event0"] ["event3"]
      "12" (by decide)).2 (by decide) (by decide) (by decide) (by decide) (by decide)
      (by decide)⟩

/-! ## C2: no match, no descriptor -/

theorem longName_overruns (k : Kernel) (dev_name : Option String) (input_name0 : String)
    (flush_state0 : Int) (w : World) :
    construct k dev_name (some longName) input_name0 flush_state0 w = none := by
  have hl : longName.length = 9000 := by
    show (List.replicate 9000 'a').length = 9000
    exact List.length_replicate 9000 'a'
  have hs := symPath_length longName
  have hno : ¬ ((symPath longName).length + 1 ≤ PATH_MAX) := by
    unfold PATH_MAX
    omega
  simp only [construct, openLink, hno, if_false]

/-- C2, the claim as stated fails in two ways.  For the 9000-byte name
`longName`, on a kernel without directories (so that no candidate exists),
`strcat(sympath, inputName)` overruns `sympath` and construction does not
return.  For the 79-byte name `name79`, the only candidate reports `name80`,
which differs from it, but its first 79 bytes are stored without terminator
before a 0 byte, the comparison succeeds and `data_fd` is the valid
descriptor 4. -/
theorem no_match_fails_on_long_names :
    (bareKernel.dir (symPath longName) = none ∧ bareKernel.dir "/dev/input" = none ∧
      construct bareKernel (some "/dev/ctl") (some longName) "" 0 demoWorld = none)
    ∧
    (truncatedKernel.dir (symPath name79) = none ∧
      truncatedKernel.dir "/dev/input" = some ["event0"] ∧
      reportedName truncatedKernel (inputDevname "event0") = name80 ∧
      name80 ≠ name79 ∧
      (construct truncatedKernel (some "/dev/ctl") (some name79) "" 0 demoWorld).map
        (fun c => c.1.data_fd) = some 4) :=
  ⟨⟨rfl, rfl, longName_overruns bareKernel (some "/dev/ctl") "" 0 demoWorld⟩, by decide⟩

/-- C2 as amended: for an input name of at most 78 bytes and symlink-directory
entries of at most 255 bytes, when no candidate of the symlink directory and
none of the raw input directory (a missing directory has no candidates)
reports the input name, construction returns with `data_fd` negative (so
`getFd` is negative too), the descriptor table is the one before the call, and
no `close` hit a descriptor that was not open. -/
theorem no_match_no_descriptor (k : Kernel) (inputName : String) (dev_name : Option String)
    (input_name0 : String) (flush_state0 : Int) (w : World)
    (hlen : inputName.length ≤ 78)
    (hent : ∀ e ∈ (k.dir (symPath inputName)).getD [], e.length ≤ 255)
    (hsym : ∀ e ∈ (k.dir (symPath inputName)).getD [], "event".data <+: e.data →
      k.node (linkDevname e) = true → reportedName k (linkDevname e) ≠ inputName)
    (hraw : ∀ e ∈ (k.dir "/dev/input").getD [], e ≠ "." → e ≠ ".." →
      k.node (inputDevname e) = true → reportedName k (inputDevname e) ≠ inputName) :
    ∃ c, construct k dev_name (some inputName) input_name0 flush_state0 w = some c ∧
      c.1.data_fd < 0 ∧ getFd c.1 < 0 ∧ c.2.fds = w.fds ∧
      badCloses c.2.log = badCloses w.log := by
  obtain ⟨fds, log⟩ := w
  have h1 := phaseResult_none (fun d => !eventPrefix d) linkDevname k inputName
    (symPath inputName) (init dev_name (some inputName) input_name0 flush_state0) fds log
    (fun e he hs hn hb => hsym e he (link_skip_false e hs) hn
      ((bufferedName_eq_iff k _ inputName hlen).mp hb))
  have hl1 := phaseResult_log (fun d => !eventPrefix d) linkDevname k inputName
    (symPath inputName) (init dev_name (some inputName) input_name0 flush_state0) fds log
  simp only [construct, openLink_eq k inputName _ fds log hlen hent]
  obtain ⟨a1, a2, a3⟩ := h1
  generalize hr : phaseResult (fun d => !eventPrefix d) linkDevname k inputName
    (symPath inputName) _ fds log = r at a1 a2 a3 hl1
  obtain ⟨r1, rs, ⟨rfds, rlog⟩⟩ := r
  simp only at a1 a2 a3 hl1
  subst a1 a2 a3
  have h2 := phaseResult_none dotEntry inputDevname k inputName "/dev/input"
    (init dev_name (some inputName) input_name0 flush_state0) rfds rlog
    (fun e he hs hn hb => hraw e he (dotEntry_false_ne e hs).1 (dotEntry_false_ne e hs).2 hn
      ((bufferedName_eq_iff k _ inputName hlen).mp hb))
  have hl2 := phaseResult_log dotEntry inputDevname k inputName "/dev/input"
    (init dev_name (some inputName) input_name0 flush_state0) rfds rlog
  have hneg : ((-1 : Int) < 0) := by decide
  simp only [hneg, if_true, openInput_eq]
  obtain ⟨b1, b2, b3⟩ := h2
  refine ⟨_, rfl, ?_, ?_, b3, ?_⟩
  · simp only [b1]; decide
  · simp only [getFd, b2, b1]
    simp [init]
  · rw [hl2.2, hl1.2]

/-- Witness of the amended C2 on the demo kernel: nothing there is named `gyro`. -/
theorem no_match_no_descriptor_witness :
    ∃ c, construct demoKernel (some "/dev/ctl") (some "gyro") "" 0 demoWorld = some c ∧
      c.1.data_fd < 0 ∧ getFd c.1 < 0 ∧ c.2.fds = demoWorld.fds ∧
      badCloses c.2.log = badCloses demoWorld.log :=
  no_match_no_descriptor demoKernel "gyro" (some "/dev/ctl") "" 0 demoWorld
    (by decide) (by decide) (by decide) (by decide)

/-! ## C3: phase order -/

/-- C4: a call of `getFd` returns `data_fd` when the object has an input name
and `dev_fd` otherwise, and leaves the object and the world as they were; the
input name is the one given to the constructor, so on every object constructed
with a name the result is `data_fd`, and on every object constructed without
one (a construction that always returns) it is `dev_fd`. -/
theorem getFd_selects (k : Kernel) (self : SensorBase) (w : World)
    (dev_name : Option String) (inputName input_name0 : String) (flush_state0 : Int) :
    invoke k Method.getFd self w =
        ((if self.data_name.isSome then self.data_fd else self.dev_fd), self, w) ∧
      (∀ c, construct k dev_name (some inputName) input_name0 flush_state0 w = some c →
        getFd c.1 = c.1.data_fd) ∧
      (∃ c, construct k dev_name none input_name0 flush_state0 w = some c ∧
        getFd c.1 = c.1.dev_fd) := by
  refine ⟨?_, ?_, ?_⟩
  · cases h : self.data_name <;> simp [invoke, getFd, h]
  · intro c hc
    have h := (construct_post k dev_name (some inputName) input_name0 flush_state0 w c hc).2.1
    simp only [getFd, h]
  · exact ⟨_, construct_none k dev_name input_name0 flush_state0 w, rfl⟩

/-- Witness of C4 on the demo kernel: constructed for `accel`, the object has
`data_fd = 4` and `getFd` returns it. -/
theorem getFd_selects_witness :
    construct demoKernel (some "/dev/ctl") (some "accel") "" 0 demoWorld =
        some demoConstructed ∧
      demoConstructed.1.data_fd = 4 ∧
      getFd demoConstructed.1 = demoConstructed.1.data_fd :=
  ⟨by decide, by decide,
    (getFd_selects demoKernel demoSelf demoWorld (some "/dev/ctl") "accel" "" 0).2.1
      demoConstructed (by decide)⟩

/-! ## C7: close_device is idempotent -/

/-- C7: on the object reached by a construction that returned and any sequence
of method calls, `close_device` returns 0 and leaves `dev_fd = -1`; a further
`close_device`, in whatever world, returns 0 and changes neither the object
nor the world (so it issues no `close`). -/
theorem close_device_idempotent (k : Kernel) (dev_name data_name : Option String)
    (input_name0 : String) (flush_state0 : Int) (w : World) (ms : List Method)
    (c : SensorBase × World)
    (hc : construct k dev_name data_name input_name0 flush_state0 w = some c) :
    (close_device (invokeAll k ms c.1 c.2).1 (invokeAll k ms c.1 c.2).2).1 = 0 ∧
      (close_device (invokeAll k ms c.1 c.2).1 (invokeAll k ms c.1 c.2).2).2.1.dev_fd = -1 ∧
      ∀ w2 : World,
        close_device
            (close_device (invokeAll k ms c.1 c.2).1 (invokeAll k ms c.1 c.2).2).2.1 w2 =
          (0, (close_device (invokeAll k ms c.1 c.2).1 (invokeAll k ms c.1 c.2).2).2.1,
            w2) := by
  have hown := invokeAll_owns k _ _ _ ms _ _
    (construct_owns k dev_name data_name input_name0 flush_state0 w c hc)
  generalize invokeAll k ms c.1 c.2 = r at hown
  obtain ⟨s, w1⟩ := r
  obtain ⟨_, _, hdev⟩ := hown
  rcases hdev with ⟨c1, _⟩ | ⟨n, q, c1, _, _⟩
  · simp only at c1
    simp [close_device, c1]
  · simp only at c1
    simp [close_device, c1]

/-- Witness of C7 on the demo kernel, after `open_device`, a flush and
`close_device`. -/
theorem close_device_idempotent_witness :
    (close_device
        (invokeAll demoKernel [Method.open_device, Method.flush 3, Method.close_device]
          demoConstructed.1 demoConstructed.2).1
        (invokeAll demoKernel [Method.open_device, Method.flush 3, Method.close_device]
          demoConstructed.1 demoConstructed.2).2).2.1.dev_fd = -1 :=
  (close_device_idempotent demoKernel (some "/dev/ctl") (some "accel") "" 0 demoWorld
    [Method.open_device, Method.flush 3, Method.close_device] demoConstructed
    (by decide)).2.1

/-! ## C8: every descriptor is released exactly once -/

/-- C8: after a construction that returned, any sequence of method calls and
the destructor, the descriptor table is the one before construction (nothing
the object opened is left open), no `close` in the whole run hit a descriptor
that was not open (nothing is closed twice), and the destructor's calls are
the close of `data_fd`, when valid, followed by the close of `dev_fd`, when
valid. -/
theorem descriptors_released_once (k : Kernel) (dev_name data_name : Option String)
    (input_name0 : String) (flush_state0 : Int) (w : World) (ms : List Method)
    (c : SensorBase × World)
    (hc : construct k dev_name data_name input_name0 flush_state0 w = some c) :
    (destruct (invokeAll k ms c.1 c.2).1 (invokeAll k ms c.1 c.2).2).fds = w.fds ∧
      badCloses (destruct (invokeAll k ms c.1 c.2).1 (invokeAll k ms c.1 c.2).2).log =
        badCloses w.log ∧
      (destruct (invokeAll k ms c.1 c.2).1 (invokeAll k ms c.1 c.2).2).log =
        (invokeAll k ms c.1 c.2).2.log ++ teardownCalls (invokeAll k ms c.1 c.2).1 := by
  have hown := invokeAll_owns k _ _ _ ms _ _
    (construct_owns k dev_name data_name input_name0 flush_state0 w c hc)
  have hpost :=
    (construct_post k dev_name data_name input_name0 flush_state0 w c hc).2.2.2.2
  generalize invokeAll k ms c.1 c.2 = r at hown
  obtain ⟨s, w1⟩ := r
  simp only at hown ⊢
  have hd : s.data_fd = c.1.data_fd := hown.1
  rw [← hd] at hown hpost
  have hb : badCloses w1.log = badCloses w.log := hown.2.1
  have hde := destruct_eq w.fds _ _ s w1 hpost hown
  refine ⟨hde.1, ?_, hde.2⟩
  rw [hde.2, badCloses_append, badCloses_teardown, hb]
  simp

/-- Witness of C8 on the demo kernel: with the control device left open, the
destructor closes the data descriptor 4 and then the control descriptor 3, and
the table is the initial one. -/
theorem descriptors_released_once_witness :
    (destruct (invokeAll demoKernel [Method.open_device] demoConstructed.1
        demoConstructed.2).1
      (invokeAll demoKernel [Method.open_device] demoConstructed.1
        demoConstructed.2).2).fds = demoWorld.fds ∧
      teardownCalls (invokeAll demoKernel [Method.open_device] demoConstructed.1
        demoConstructed.2).1 = [Call.sys_close 4 true, Call.sys_close 3 true] :=
  ⟨(descriptors_released_once demoKernel (some "/dev/ctl") (some "accel") "" 0 demoWorld
      [Method.open_device] demoConstructed (by decide)).1, by decide⟩

/-! ## C5: a successful flush -/

/-- C5: for a handle `h` with `0 ≤ h ≤ 30`, when the control file opens and
`write` returns a non-negative value, the bytes submitted are the ASCII codes
of the decimal digits of `h` followed by one 0 byte, the system calls of the
flush are the open, that write and the close, bit `h` of `flush_state` is set
and every other bit is as before, and the value returned is that of `write`. -/
theorem flush_sets_bit (k : Kernel) (self : SensorBase) (w : World) (h : Nat)
    (hh : h ≤ 30) (hopen : k.wnode flushPath = true)
    (hw : 0 ≤ k.writeRet flushPath (cstrBytes (sprintf_d (h : Int)))) :
    cstrBytes (sprintf_d (h : Int)) =
        (if h < 10 then [48 + h, 0] else [48 + h / 10, 48 + h % 10, 0]) ∧
      (flush k (h : Int) self w).2.2.log =
        w.log ++ [Call.sys_open flushPath (lowestFree w.used),
          Call.sys_write (lowestFree w.used) (cstrBytes (sprintf_d (h : Int)))
            (k.writeRet flushPath (cstrBytes (sprintf_d (h : Int)))),
          Call.sys_close (lowestFree w.used) true] ∧
      (∀ i : Nat, (flush k (h : Int) self w).2.1.flush_state.testBit i =
        (decide (h = i) || self.flush_state.testBit i)) ∧
      (flush k (h : Int) self w).1 =
        k.writeRet flushPath (cstrBytes (sprintf_d (h : Int))) := by
  obtain ⟨fds, log⟩ := w
  have hnot : ¬ (k.writeRet flushPath (cstrBytes (sprintf_d (h : Int))) < 0) := not_lt.mpr hw
  refine ⟨?_, ?_, ?_, ?_⟩
  · interval_cases h <;> rfl
  · rw [flush_open_ok k _ self fds log hopen]
    rfl
  · intro i
    rw [flush_open_ok k _ self fds log hopen]
    simp only [hnot, if_false]
    rw [Int.testBit_lor, testBit_shl1 h hh, Bool.or_comm]
  · rw [flush_open_ok k _ self fds log hopen]

/-- Witness of C5 at `h = 3` on the demo kernel, whose writes are complete:
the bytes are `"3"` and NUL, and `flush_state` goes from 0 to 8. -/
theorem flush_sets_bit_witness :
    cstrBytes (sprintf_d ((3 : Nat) : Int)) = [51, 0] ∧
      (flush demoKernel ((3 : Nat) : Int) demoSelf demoWorld).2.2.log =
        [Call.sys_open flushPath 3, Call.sys_write 3 [51, 0] 2, Call.sys_close 3 true] ∧
      (flush demoKernel ((3 : Nat) : Int) demoSelf demoWorld).2.1.flush_state = 8 ∧
      (∀ i : Nat, (flush demoKernel ((3 : Nat) : Int) demoSelf demoWorld).2.1.flush_state.testBit
          i = (decide (3 = i) || demoSelf.flush_state.testBit i)) :=
  ⟨(flush_sets_bit demoKernel demoSelf demoWorld 3 (by decide) (by decide) (by decide)).1,
    by decide, by decide,
    (flush_sets_bit demoKernel demoSelf demoWorld 3 (by decide) (by decide) (by decide)).2.2.1⟩

/-! ## C6: a failed write -/

/-- C6, the claim as stated fails: on a kernel that accepts 1 of the 2 bytes
submitted for handle 3, `flush` returns 1, which is not negative, and leaves
bit 3 of `flush_state` set. -/
theorem flush_short_write_not_failure :
    shortWriteKernel.writeRet flushPath (cstrBytes (sprintf_d 3)) = 1 ∧
      (1 : Int) < (cstrBytes (sprintf_d 3)).length ∧
      (flush shortWriteKernel 3 demoSelf demoWorld).1 = 1 ∧
      (flush shortWriteKernel 3 demoSelf demoWorld).2.1.flush_state.testBit 3 = true := by
  decide

/-- C6 as amended: for a handle `h` with `0 ≤ h ≤ 30`, when the control file
opens and `write` returns a negative value, `flush` returns that negative
value and bit `h` of `flush_state` is clear afterwards. -/
theorem flush_write_failure (k : Kernel) (self : SensorBase) (w : World) (h : Nat)
    (hh : h ≤ 30) (hopen : k.wnode flushPath = true)
    (hw : k.writeRet flushPath (cstrBytes (sprintf_d (h : Int))) < 0) :
    (flush k (h : Int) self w).1 < 0 ∧
      (flush k (h : Int) self w).2.1.flush_state.testBit h = false := by
  obtain ⟨fds, log⟩ := w
  rw [flush_open_ok k _ self fds log hopen]
  refine ⟨hw, ?_⟩
  simp only [hw, if_true]
  rw [Int.testBit_land, Int.testBit_lnot, testBit_shl1 h hh]
  simp

/-- Witness of the amended C6 at `h = 3` on a kernel that rejects the write. -/
theorem flush_write_failure_witness :
    (flush failedWriteKernel ((3 : Nat) : Int) { demoSelf with flush_state := 12 }
        demoWorld).1 < 0 ∧
      (flush failedWriteKernel ((3 : Nat) : Int) { demoSelf with flush_state := 12 }
        demoWorld).2.1.flush_state.testBit 3 = false :=
  flush_write_failure failedWriteKernel { demoSelf with flush_state := 12 } demoWorld 3
    (by decide) (by decide) (by decide)

/-! ## C9: a candidate whose name query fails -/

/-- C9, the claim as stated fails for the empty input name: `mouse0` opens, its
name query returns -1, and `openInput` with the input name `""` returns the
descriptor open on that very node, without any `close`. -/
theorem failed_query_matches_empty_name :
    (unnamedKernel.evName (inputDevname "mouse0")).1 < 1 ∧
      (openInput unnamedKernel "" demoSelf demoWorld).1 = 4 ∧
      (openInput unnamedKernel "" demoSelf demoWorld).2.2.pathOf 4 =
        some "/dev/input/mouse0" ∧
      (openInput unnamedKernel "" demoSelf demoWorld).2.1.input_name = "mouse0" ∧
      (openInput unnamedKernel "" demoSelf demoWorld).2.2.log =
        [Call.sys_opendir "/dev/input" true, Call.sys_open "/dev/input/mouse0" 4,
          Call.sys_ioctl 4 (-1), Call.sys_closedir 3] := by
  decide

/-- C9 as amended: for a non-empty input name, in either loop, an eligible
entry whose node opens and whose name query returns less than 1 is not taken:
the loop on `de :: rest` equals the loop on `rest` started with `fd = -1` in a
world with the same descriptor table, whose log has gained the open, the
ioctl and the close of that candidate. -/
theorem failed_query_rejected (k : Kernel) (inputName de : String) (rest : List String)
    (fd : Int) (self : SensorBase) (w : World) (hne : inputName ≠ "") :
    ("event".data <+: de.data → k.node (linkDevname de) = true →
      (k.evName (linkDevname de)).1 < 1 →
      openLinkLoop k inputName (de :: rest) fd self w =
        openLinkLoop k inputName rest (-1) self
          ⟨w.fds, w.log ++ [Call.sys_open (linkDevname de) (lowestFree w.used),
            Call.sys_ioctl (lowestFree w.used) (k.evName (linkDevname de)).1,
            Call.sys_close (lowestFree w.used) true]⟩)
    ∧
    (de ≠ "." → de ≠ ".." → k.node (inputDevname de) = true →
      (k.evName (inputDevname de)).1 < 1 →
      openInputLoop k inputName (de :: rest) fd self w =
        openInputLoop k inputName rest (-1) self
          ⟨w.fds, w.log ++ [Call.sys_open (inputDevname de) (lowestFree w.used),
            Call.sys_ioctl (lowestFree w.used) (k.evName (inputDevname de)).1,
            Call.sys_close (lowestFree w.used) true]⟩) := by
  obtain ⟨fds, log⟩ := w
  have hfresh := lowestFree_not_mem (fds.map Prod.fst)
  have hge : ((lowestFree (fds.map Prod.fst) : Nat) : Int) ≥ 0 := Int.ofNat_nonneg _
  have hne2 : ¬ ("" = inputName) := fun c => hne c.symm
  constructor
  · intro hp hn hq
    have hs : eventPrefix de = true := (eventPrefix_iff de).mpr hp
    simp only [openLinkLoop, hs, Bool.not_true, Bool.false_eq_true, if_false,
      sys_open_ok k fds log _ hn, hge, if_true, queryName_head, bufferedName, hq, hne2,
      sys_close_head _ _ _ _ hfresh, World.used]
    simp [List.append_assoc]
  · intro h1 h2 hn hq
    have hs : dotEntry de = false := dotEntry_false de h1 h2
    simp only [openInputLoop, hs, Bool.false_eq_true, if_false,
      sys_open_ok k fds log _ hn, hge, if_true, queryName_head, bufferedName, hq, hne2,
      sys_close_head _ _ _ _ hfresh, World.used]
    simp [List.append_assoc]

/-- Witness of the amended C9 on the demo kernel, where the nodes of `event0`
open and do not answer the name query. -/
theorem failed_query_rejected_witness :
    (openLinkLoop demoKernel "accel" ("event0" :: ["event1"]) (-1) demoSelf demoWorld =
        openLinkLoop demoKernel "accel" ["event1"] (-1) demoSelf
          ⟨demoWorld.fds, demoWorld.log ++
            [Call.sys_open (linkDevname "event0") (lowestFree demoWorld.used),
              Call.sys_ioctl (lowestFree demoWorld.used)
                (demoKernel.evName (linkDevname "event0")).1,
              Call.sys_close (lowestFree demoWorld.used) true]⟩)
    ∧
    (openInputLoop demoKernel "accel" ("event0" :: ["12"]) (-1) demoSelf demoWorld =
        openInputLoop demoKernel "accel" ["12"] (-1) demoSelf
          ⟨demoWorld.fds, demoWorld.log ++
            [Call.sys_open (inputDevname "event0") (lowestFree demoWorld.used),
              Call.sys_ioctl (lowestFree demoWorld.used)
                (demoKernel.evName (inputDevname "event0")).1,
              Call.sys_close (lowestFree demoWorld.used) true]⟩) :=
  ⟨(failed_query_rejected demoKernel "accel" "event0" ["event1"] (-1) demoSelf demoWorld
      (by decide)).1 (by decide) (by decide) (by decide),
    (failed_query_rejected demoKernel "accel" "event0" ["12"] (-1) demoSelf demoWorld
      (by decide)).2 (by decide) (by decide) (by decide) (by decide)⟩

/-! ## C10: the path the symlink phase opens -/

/-- C10 fails on the code: for the entry `event0` the symlink phase gives `open`
the path `/dev/inputevent0`, without separator, where the raw phase gives it
`/dev/input/event0`; for no entry at all do the two phases build the same path. -/
theorem openLink_devname_lacks_separator :
    (openLink demoKernel "accel" demoSelf demoWorld).map
        (fun r => openedPaths r.2.2.log) =
        some ["/dev/inputevent0", "/dev/inputevent1"] ∧
      openedPaths (openInput demoKernel "accel" demoSelf demoWorld).2.2.log =
        ["/dev/input/event0", "/dev/input/12"] ∧
      linkDevname "event0" = "/dev/inputevent0" ∧
      inputDevname "event0" = "/dev/input/event0" ∧
      ∀ e : String, linkDevname e ≠ inputDevname e := by
  refine ⟨by decide, by decide, by decide, by decide, ?_⟩
  intro e h
  have hlen := congrArg String.length h
  simp only [linkDevname, inputDevname, String.length_append] at hlen
  have h1 : "/dev/input".length = 10 := by decide
  have h2 : "/".length = 1 := by decide
  omega

end SensorBase

end Sensors
